import Mathlib

/-!
Verification of the C-binary ninja target writer
(`src/gn/ninja_c_binary_target_writer.cc`).

The emitter is shallowly embedded: external collaborators (the target graph,
toolchain resolution, the base-class writer services) are carried as fields of
the `Target` record, while every function defined in
`ninja_c_binary_target_writer.cc` itself is translated into a Lean definition
of the same name.  Output is modelled as a list of `Stmt` values plus an
optional scheduler error; fatal `CHECK` assertions are modelled by the
`Except.error` branch of the emitter.
-/

namespace Gn

/-- Source file types, following `source_file_type.cc` / `source_file.h`
(`SOURCE_C`, `SOURCE_CPP`, ..., with the newer `SOURCE_MODULEMAP` and
`SOURCE_SWIFT` kinds used by the writer). -/
inductive SourceType
  | c
  | cpp
  | h
  | m
  | mm
  | rc
  | asmSrc
  | o
  | defSource
  | rs
  | go
  | modulemap
  | swift
  | unknown
deriving DecidableEq, Repr

/-- A source file: a build-root-relative path plus its typed extension. -/
structure SourceFile where
  value : String
  type : SourceType
deriving DecidableEq, Repr

def SourceFile.isModuleMapType (s : SourceFile) : Bool :=
  s.type == SourceType.modulemap

def SourceFile.isDefType (s : SourceFile) : Bool :=
  s.type == SourceType.defSource

def SourceFile.isSwiftType (s : SourceFile) : Bool :=
  s.type == SourceType.swift

/-- Target output types (`Target::OutputType`), restricted to the
constructors the writer inspects. -/
inductive OutputType
  | executable
  | sharedLibrary
  | loadableModule
  | staticLibrary
  | sourceSet
  | rustLibrary
  | rustProcMacro
  | group
deriving DecidableEq, Repr

/-- `CTool::PrecompiledHeaderType`. -/
inductive PCHType
  | pchNone
  | pchGcc
  | pchMsvc
deriving DecidableEq, Repr

/-- The slice of `CTool` the writer reads. -/
structure CTool where
  precompiledHeaderType : PCHType
deriving DecidableEq, Repr

/-- `Tool::kToolNone` (the empty tool name). -/
def kToolNone : String := ""

/-- `CTool::kCToolCc`. -/
def kCToolCc : String := "cc"

/-- `CTool::kCToolCxx`. -/
def kCToolCxx : String := "cxx"

/-- `CTool::kCToolObjC`. -/
def kCToolObjC : String := "objc"

/-- `CTool::kCToolObjCxx`. -/
def kCToolObjCxx : String := "objcxx"

/-- `GeneralTool::kGeneralToolStamp`. -/
def kGeneralToolStamp : String := "stamp"

/-- Ninja names of the module-deps substitutions
(`CSubstitutionModuleDeps`, `CSubstitutionModuleDepsNoSelf`). -/
def ninjaNameModuleDeps : String := "module_deps"

def ninjaNameModuleDepsNoSelf : String := "module_deps_no_self"

/-- Ninja names of the per-language flag substitutions used for PCH edges. -/
def ninjaNameCFlagsC : String := "cflags_c"

def ninjaNameCFlagsCc : String := "cflags_cc"

def ninjaNameCFlagsObjC : String := "cflags_objc"

def ninjaNameCFlagsObjCc : String := "cflags_objcc"

/-- One emitted ninja statement.  A `buildEdge` is
`build <outputs>: <rule> <explicitIns> | <implicitIns> || <orderOnly>`;
a `varLine` is an indented `name = value` override; `varFiles` is a
`name = <paths...>` override holding a path list; `blank` is an empty line. -/
inductive Stmt
  | buildEdge (outputs : List String) (rule : String)
      (explicitIns : List String) (implicitIns : List String)
      (orderOnly : List String)
  | varLine (name : String) (value : String)
  | varFiles (name : String) (files : List String)
  | blank
deriving DecidableEq, Repr

def Stmt.isBuildEdge : Stmt → Bool
  | Stmt.buildEdge _ _ _ _ _ => true
  | _ => false

/-- The rule name of a statement, when it is a build edge. -/
def Stmt.ruleOf : Stmt → Option String
  | Stmt.buildEdge _ rule _ _ _ => some rule
  | _ => Option.none

/-- `struct ModuleDep` from the writer. -/
structure ModuleDep where
  modulemap : SourceFile
  moduleName : String
  pcm : String
  isSelf : Bool
deriving DecidableEq, Repr

/-- The slice of a (dependency) target consumed by
`GetModuleDepsInformation`: its sources, its label (the
`SubstitutionLabelNoToolchain` value) and `Target::GetOutputFilesForSource`. -/
structure MDTarget where
  sources : List SourceFile
  label : String
  outputsForSource : SourceFile → Option (String × List String)

/-- A classified linkable dependency: its output type, its link-output file
and its dependency-output file. -/
structure LinkableDep where
  outputType : OutputType
  linkOutput : String
  depOutput : String
deriving DecidableEq, Repr

/-- An entry of `Target::all_libs()` (`LibFile`). -/
structure LibFile where
  isSourceFile : Bool
  value : String
deriving DecidableEq, Repr

/-- `NinjaBinaryTargetWriter::ClassifiedDeps`, reduced to the fields the
writer reads from each member. -/
structure ClassifiedDeps where
  linkableDeps : List LinkableDep
  nonLinkableDeps : List String
  frameworkDeps : List String
  swiftmoduleDeps : List String
  extraObjectFiles : List String
deriving DecidableEq, Repr

/-- The scheduler error payload passed to `Scheduler::FailWithError`. -/
structure SchedulerErr where
  header : String
  message : String
deriving DecidableEq, Repr

/-- A resolved target together with the read-only services the writer
consumes (toolchain lookups, base-class writer results, classified deps).
Function-valued fields model the external collaborators listed as
out-of-scope by the specification. -/
structure Target where
  label : String
  outputType : OutputType
  sources : List SourceFile
  outputsForSource : SourceFile → Option (String × List String)
  hasPrecompiledHeaders : Bool
  precompiledSource : SourceFile
  precompiledHeader : String
  getToolAsC : String → Option CTool
  usedSubstitution : String → Bool
  pchOutputFiles : String → List String
  cflagsFor : String → String
  winPchObjExt : String → String → String
  gccPchExt : String → String
  ccCompilerVarStmts : List Stmt
  sharedVarStmts : List Stmt
  inputsStampStmts : List Stmt
  inputDeps : List String
  inputDepsStampStmts : List Stmt
  orderOnlyDeps : List String
  poolVar : Option String
  linkedDeps : List MDTarget
  swiftToolName : String
  swiftModuleOutputFile : String
  swiftToolResolvedOutputs : List String
  swiftHasPartialOutputs : Bool
  swiftPartialOutputsFor : SourceFile → List String
  swiftImportedModuleDeps : List String
  buildsSwiftModule : Bool
  classifiedDeps : ClassifiedDeps
  linkerOutputs : List String
  rulePfx : String
  finalOutputToolName : String
  allLibs : List LibFile
  isFinal : Bool
  inheritedLibraries : List LinkableDep
  ldflagsWith : Option SourceFile → String
  libsStr : String
  frameworksStr : String
  arflagsStr : String
  outputExtensionStr : String
  outputDirStr : String
  linkPoolVar : Option String
  sourceSetStampOutput : String

/-- `SourceFileTypeSet::Get`, derived from the source list as target
resolution does. -/
def Target.sourceTypeUsed (t : Target) (ty : SourceType) : Bool :=
  t.sources.any (fun s => s.type == ty)

/-- `SourceFileTypeSet::SwiftSourceUsed`. -/
def Target.swiftSourceUsed (t : Target) : Bool :=
  t.sourceTypeUsed SourceType.swift

/-- The `MDTarget` view of the target itself. -/
def Target.asMDTarget (t : Target) : MDTarget :=
  { sources := t.sources, label := t.label,
    outputsForSource := t.outputsForSource }

/-- `GetPCHLangForToolType`: the language recognized by gcc's `-x` flag. -/
def getPCHLangForToolType (name : String) : String :=
  if name = kCToolCc then "c-header"
  else if name = kCToolCxx then "c++-header"
  else if name = kCToolObjC then "objective-c-header"
  else if name = kCToolObjCxx then "objective-c++-header"
  else ""

/-- `GetModuleMapFromTargetSources`: the first module-map source. -/
def getModuleMapFromTargetSources (sources : List SourceFile) :
    Option SourceFile :=
  sources.find? (fun sf => sf.isModuleMapType)

/-- Message of the fatal `CHECK(modulemap_outputs.size() == 1u)` in
`GetModuleDepsInformation`. -/
def checkMsgModulemapOutputsSize : String :=
  "CHECK failed: modulemap_outputs.size() == 1u"

/-- Message of the fatal `CHECK` that `GetOutputFilesForSource` succeeds. -/
def checkMsgGetOutputFilesForSource : String :=
  "CHECK failed: t->GetOutputFilesForSource(*modulemap, ...)"

/-- Message of the fatal `CHECK(modulemap)`. -/
def checkMsgModulemap : String :=
  "CHECK failed: modulemap"

/-- The `add` lambda inside `GetModuleDepsInformation`: build one
`ModuleDep` record for a target known to have a module-map source.
The `CHECK`s are modelled as `Except.error` (process abort). -/
def mdAdd (core : MDTarget) (isSelf : Bool) : Except String ModuleDep :=
  match getModuleMapFromTargetSources core.sources with
  | Option.none => Except.error checkMsgModulemap
  | some mm =>
    match core.outputsForSource mm with
    | Option.none => Except.error checkMsgGetOutputFilesForSource
    | some (_, outs) =>
      if outs.length = 1 then
        Except.ok ⟨mm, core.label, outs.headD "", isSelf⟩
      else
        Except.error checkMsgModulemapOutputsSize

/-- The loop over `GetDeps(DEPS_LINKED)` in `GetModuleDepsInformation`. -/
def mdCollectDeps : List MDTarget → Except String (List ModuleDep)
  | [] => Except.ok []
  | d :: rest =>
    if d.sources.any (fun s => s.type == SourceType.modulemap) then do
      let md ← mdAdd d false
      let tail ← mdCollectDeps rest
      Except.ok (md :: tail)
    else
      mdCollectDeps rest

/-- `GetModuleDepsInformation`: the self record (when the target has a
module-map source) followed by one record per linked dep with a module-map
source. -/
def getModuleDepsInformation (t : Target) :
    Except String (List ModuleDep) := do
  let selfPart ←
    if t.sourceTypeUsed SourceType.modulemap then do
      let md ← mdAdd t.asMDTarget true
      Except.ok [md]
    else
      Except.ok ([] : List ModuleDep)
  let depPart ← mdCollectDeps t.linkedDeps
  Except.ok (selfPart ++ depPart)

/-- The value written for a module-deps substitution: `-Xclang
-fmodules-embed-all-files` followed by one ` -fmodule-file=<pcm>` per
selected record (records with `is_self` are dropped unless
`includeSelf`). -/
def moduleDepsValue (moduleDepInfo : List ModuleDep) (includeSelf : Bool) :
    String :=
  "-Xclang -fmodules-embed-all-files" ++
    String.join
      ((moduleDepInfo.filter (fun md => !md.isSelf || includeSelf)).map
        (fun md => " -fmodule-file=" ++ md.pcm))

/-- `NinjaCBinaryTargetWriter::WriteModuleDepsSubstitution`: emits a single
variable line when the toolchain's substitution bits mark the substitution
as used, and nothing otherwise. -/
def writeModuleDepsSubstitution (t : Target) (substName : String)
    (moduleDepInfo : List ModuleDep) (includeSelf : Bool) : List Stmt :=
  if t.usedSubstitution substName then
    [Stmt.varLine substName (moduleDepsValue moduleDepInfo includeSelf)]
  else
    []

/-- `NinjaCBinaryTargetWriter::WriteCompilerVars`. -/
def writeCompilerVars (t : Target) (moduleDepInfo : List ModuleDep) :
    List Stmt :=
  t.ccCompilerVarStmts ++
    (if !moduleDepInfo.isEmpty &&
        (t.sourceTypeUsed SourceType.cpp ||
          t.sourceTypeUsed SourceType.modulemap) then
      writeModuleDepsSubstitution t ninjaNameModuleDeps moduleDepInfo true ++
        writeModuleDepsSubstitution t ninjaNameModuleDepsNoSelf moduleDepInfo
          false
    else
      []) ++
    t.sharedVarStmts

/-- `NinjaCBinaryTargetWriter::WriteGCCPCHCommand`: one build edge compiling
the precompiled source with the language tool, followed by a flag-variable
override replacing the language flags with the target's cflags plus
`-x <pch-lang>`.  Outputs are the `.gch` files. -/
def writeGCCPCHCommand (t : Target) (flagName toolName : String)
    (inputDeps orderOnlyDeps : List String) : List Stmt × List String :=
  let outputs := t.pchOutputFiles toolName
  if outputs.isEmpty then
    ([], [])
  else
    ([Stmt.buildEdge outputs toolName [t.precompiledSource.value] inputDeps
        orderOnlyDeps,
      Stmt.varLine flagName
        (t.cflagsFor toolName ++ " -x " ++ getPCHLangForToolType toolName),
      Stmt.blank],
     outputs)

/-- `NinjaCBinaryTargetWriter::WriteWindowsPCHCommand`: one build edge plus a
flag-variable override appending `/Yc<header>` to the existing flags.
Outputs are treated as object files. -/
def writeWindowsPCHCommand (t : Target) (flagName toolName : String)
    (inputDeps orderOnlyDeps : List String) : List Stmt × List String :=
  let outputs := t.pchOutputFiles toolName
  if outputs.isEmpty then
    ([], [])
  else
    ([Stmt.buildEdge outputs toolName [t.precompiledSource.value] inputDeps
        orderOnlyDeps,
      Stmt.varLine flagName
        ("$\x7b" ++ flagName ++ "\x7d /Yc" ++ t.precompiledHeader),
      Stmt.blank],
     outputs)

/-- `NinjaCBinaryTargetWriter::WritePCHCommand`: dispatch on the dialect.
The `PCH_NONE` case is `NOTREACHED` at the call sites and emits nothing.
Returns (statements, object files, other files). -/
def writePCHCommand (t : Target) (flagName toolName : String)
    (headerType : PCHType) (inputDeps orderOnlyDeps : List String) :
    List Stmt × List String × List String :=
  match headerType with
  | PCHType.pchMsvc =>
    let (stmts, objs) :=
      writeWindowsPCHCommand t flagName toolName inputDeps orderOnlyDeps
    (stmts, objs, [])
  | PCHType.pchGcc =>
    let (stmts, gchs) :=
      writeGCCPCHCommand t flagName toolName inputDeps orderOnlyDeps
    (stmts, [], gchs)
  | PCHType.pchNone => ([], [], [])

/-- One of the four per-language blocks of
`NinjaCBinaryTargetWriter::WritePCHCommands`: the tool must exist, its
dialect must satisfy the block's test (`!= PCH_NONE` for C/C++,
`== PCH_GCC` for ObjC/ObjC++), and the target must use sources of the
language. -/
def writePCHBlock (t : Target) (flagName toolName : String)
    (dialectOK : PCHType → Bool) (srcTy : SourceType)
    (inputDeps orderOnlyDeps : List String) :
    List Stmt × List String × List String :=
  match t.getToolAsC toolName with
  | some tool =>
    if dialectOK tool.precompiledHeaderType && t.sourceTypeUsed srcTy then
      writePCHCommand t flagName toolName tool.precompiledHeaderType
        inputDeps orderOnlyDeps
    else
      ([], [], [])
  | Option.none => ([], [], [])

/-- `NinjaCBinaryTargetWriter::WritePCHCommands`: nothing unless the target
configures precompiled headers; otherwise the four language blocks in
order (C, C++, ObjC, ObjC++). -/
def writePCHCommands (t : Target) (inputDeps orderOnlyDeps : List String) :
    List Stmt × List String × List String :=
  if !t.hasPrecompiledHeaders then
    ([], [], [])
  else
    let bC := writePCHBlock t ninjaNameCFlagsC kCToolCc
      (fun h => h != PCHType.pchNone) SourceType.c inputDeps orderOnlyDeps
    let bCxx := writePCHBlock t ninjaNameCFlagsCc kCToolCxx
      (fun h => h != PCHType.pchNone) SourceType.cpp inputDeps orderOnlyDeps
    let bObjC := writePCHBlock t ninjaNameCFlagsObjC kCToolObjC
      (fun h => h == PCHType.pchGcc) SourceType.m inputDeps orderOnlyDeps
    let bObjCxx := writePCHBlock t ninjaNameCFlagsObjCc kCToolObjCxx
      (fun h => h == PCHType.pchGcc) SourceType.mm inputDeps orderOnlyDeps
    (bC.1 ++ bCxx.1 ++ bObjC.1 ++ bObjCxx.1,
     bC.2.1 ++ bCxx.2.1 ++ bObjC.2.1 ++ bObjCxx.2.1,
     bC.2.2 ++ bCxx.2.2 ++ bObjC.2.2 ++ bObjCxx.2.2)

/-- `FindExtensionOffset` (from `filesystem_utils`, an external helper of the
writer): the offset just past the last `.` of the file name, provided no
`/` follows it; `none` when the file name has no extension. -/
def findExtensionOffset (s : String) : Option Nat :=
  let l := s.toList
  let dotIdxs := (List.range l.length).filter (fun i => l.getD i ' ' = '.')
  match dotIdxs.getLast? with
  | Option.none => Option.none
  | some i =>
    if ((List.range l.length).filter
          (fun j => i < j && l.getD j ' ' = '/')).isEmpty then
      some (i + 1)
    else
      Option.none

/-- `FindExtension`: the extension without the dot (empty if none). -/
def findExtension (s : String) : String :=
  match findExtensionOffset s with
  | some k => (s.toList.drop k).asString
  | Option.none => ""

/-- `GetSourceFileType` from `source_file_type.cc`, extended with the
`.modulemap` and `.swift` extensions of the newer `SourceFile::GetType`
consumed by this writer. -/
def getSourceFileType (path : String) : SourceType :=
  let ext := findExtension path
  if ext = "cc" || ext = "cpp" || ext = "cxx" then SourceType.cpp
  else if ext = "h" || ext = "hpp" || ext = "hxx" || ext = "hh" then
    SourceType.h
  else if ext = "c" then SourceType.c
  else if ext = "m" then SourceType.m
  else if ext = "mm" then SourceType.mm
  else if ext = "rc" then SourceType.rc
  else if ext = "S" || ext = "s" || ext = "asm" then SourceType.asmSrc
  else if ext = "o" || ext = "obj" then SourceType.o
  else if ext = "def" then SourceType.defSource
  else if ext = "rs" then SourceType.rs
  else if ext = "go" then SourceType.go
  else if ext = "modulemap" then SourceType.modulemap
  else if ext = "swift" then SourceType.swift
  else SourceType.unknown

/-- `OutputFile::AsSourceFile(...).IsObjectType()`: the path has an object
extension (`.o` / `.obj`). -/
def isObjectPath (path : String) : Bool :=
  getSourceFileType path == SourceType.o

/-- `NinjaTargetWriter::WritePool` for compile edges: a `pool = ...`
override when the tool has a pool assignment. -/
def writePool (t : Target) : List Stmt :=
  match t.poolVar with
  | some p => [Stmt.varLine "pool" p]
  | Option.none => []

/-- The PCH-dependency filter of `WriteSources` (lines 459-479): keep only
the PCH outputs whose extension matches the expected PCH-object/gch
extension for this tool, so that e.g. a C++ PCH is never paired with a C
compile. -/
def pchDepsForTool (t : Target) (toolName : String)
    (pchDeps : List String) : List String :=
  match t.getToolAsC toolName with
  | Option.none => []
  | some tool =>
    if tool.precompiledHeaderType != PCHType.pchNone then
      pchDeps.filter (fun dep =>
        match findExtensionOffset dep with
        | Option.none => false
        | some extOff =>
          let outputExtension :=
            if tool.precompiledHeaderType == PCHType.pchMsvc then
              t.winPchObjExt toolName ((dep.toList.drop (extOff - 1)).asString)
            else if tool.precompiledHeaderType == PCHType.pchGcc then
              t.gccPchExt toolName
            else
              ""
          dep.endsWith outputExtension)
    else
      []

/-- The implicit-dependency list built for one source's compile edge in
`WriteSources`: the input deps, the extension-filtered PCH deps, then every
module-dep `.pcm` that is not the source's own first output. -/
def sourceCompileDeps (t : Target) (pchDeps inputDeps : List String)
    (moduleDepInfo : List ModuleDep) (toolName : String)
    (toolOutputs : List String) : List String :=
  inputDeps ++ pchDepsForTool t toolName pchDeps ++
    (moduleDepInfo.filter (fun md => toolOutputs.headD "" != md.pcm)).map
      (fun md => md.pcm)

/-- The per-source body of the loop in
`NinjaCBinaryTargetWriter::WriteSources`.  Returns the statements emitted
for this source, the object files pushed, and the "other" files pushed. -/
def processSource (t : Target) (pchDeps inputDeps orderOnlyDeps : List String)
    (moduleDepInfo : List ModuleDep) (source : SourceFile) :
    List Stmt × List String × List SourceFile :=
  match t.outputsForSource source with
  | Option.none =>
    ([], [], if source.isDefType then [source] else [])
  | some (toolName, toolOutputs) =>
    let stmts :=
      if toolName != kToolNone then
        [Stmt.buildEdge toolOutputs toolName [source.value]
          (sourceCompileDeps t pchDeps inputDeps moduleDepInfo toolName
            toolOutputs)
          orderOnlyDeps] ++ writePool t
      else
        []
    (stmts,
     if source.isModuleMapType then [] else [toolOutputs.headD ""],
     [])

/-- `NinjaCBinaryTargetWriter::WriteSources`: the per-source loop, followed
by a blank separator line. -/
def writeSources (t : Target) (pchDeps inputDeps orderOnlyDeps : List String)
    (moduleDepInfo : List ModuleDep) :
    List Stmt × List String × List SourceFile :=
  let per := t.sources.map
    (processSource t pchDeps inputDeps orderOnlyDeps moduleDepInfo)
  ((per.map (fun x => x.1)).flatten ++ [Stmt.blank],
   (per.map (fun x => x.2.1)).flatten,
   (per.map (fun x => x.2.2)).flatten)

/-- Order-preserving first-occurrence deduplication (`UniqueVector`). -/
def dedupFirstAux : List String → List String → List String
  | [], _ => []
  | x :: rest, seen =>
    if seen.contains x then dedupFirstAux rest seen
    else x :: dedupFirstAux rest (x :: seen)

def dedupFirst (l : List String) : List String := dedupFirstAux l []

/-- `NinjaCBinaryTargetWriter::WriteSwiftSources`: one compile edge for the
`.swiftmodule` whose inputs are all the target's sources, plus a stamp edge
over the additional outputs when there are any.  Returns the statements and
the object files pushed. -/
def writeSwiftSources (t : Target) (inputDeps orderOnlyDeps : List String) :
    List Stmt × List String :=
  if t.swiftSourceUsed then
    let swiftmoduleOut := t.swiftModuleOutputFile
    let additional0 :=
      t.swiftToolResolvedOutputs.filter (fun oFile => oFile != swiftmoduleOut)
    let objs0 := additional0.filter isObjectPath
    let partials :=
      if t.swiftHasPartialOutputs then
        ((t.sources.filter (fun s => s.isSwiftType)).map
          t.swiftPartialOutputsFor).flatten
      else
        []
    let additional := additional0 ++ partials
    let objs := objs0 ++ partials.filter isObjectPath
    let swiftOrderOnly :=
      dedupFirst (orderOnlyDeps ++ t.swiftImportedModuleDeps)
    let stmts :=
      [Stmt.buildEdge [swiftmoduleOut] t.swiftToolName
        (t.sources.map (fun s => s.value)) inputDeps swiftOrderOnly] ++
      (if !additional.isEmpty then
        [Stmt.blank,
         Stmt.buildEdge additional kGeneralToolStamp [swiftmoduleOut]
           inputDeps swiftOrderOnly]
      else
        []) ++
      [Stmt.blank]
    (stmts, objs)
  else
    ([Stmt.blank], [])

def LinkableDep.isRust (d : LinkableDep) : Bool :=
  d.outputType == OutputType.rustLibrary ||
    d.outputType == OutputType.rustProcMacro

/-- The linkable deps taken in the shared-library branch of the loop in
`WriteLinkerStuff` (dep-output differs from link-output). -/
def sharedLinkableDeps (deps : List LinkableDep) : List LinkableDep :=
  deps.filter (fun d => !d.isRust && d.depOutput != d.linkOutput)

/-- The linkable deps linked directly as explicit inputs. -/
def directLinkableDeps (deps : List LinkableDep) : List LinkableDep :=
  deps.filter (fun d => !d.isRust && d.depOutput == d.linkOutput)

/-- `NinjaCBinaryTargetWriter::WriteLibsList`: nothing when the list is
empty, otherwise one tail-variable line holding the paths. -/
def writeLibsList (label : String) (libs : List String) : List Stmt :=
  if libs.isEmpty then [] else [Stmt.varFiles label libs]

/-- The transitive Rust rlib dependency outputs collected for a final
target. -/
def transitiveRustLibs (t : Target) : List String :=
  if t.isFinal then
    (t.inheritedLibraries.filter
      (fun d => d.outputType == OutputType.rustLibrary)).map
      (fun d => d.depOutput)
  else
    []

/-- The swiftmodule files collected for a final target (deps, then self
when the target builds a swift module). -/
def linkerSwiftModules (t : Target) : List String :=
  if t.isFinal then
    t.classifiedDeps.swiftmoduleDeps ++
      (if t.buildsSwiftModule then [t.swiftModuleOutputFile] else [])
  else
    []

/-- The `solibs` list: link-outputs of the shared-library-style linkable
deps, in dep order. -/
def linkerSolibs (t : Target) : List String :=
  (sharedLinkableDeps t.classifiedDeps.linkableDeps).map
    (fun d => d.linkOutput)

/-- The implicit-input list of the link edge, in the order
`WriteLinkerStuff` pushes: shared-dep dep-outputs, the optional def file,
source-file libraries, framework dep stamps, the input deps, transitive
rlibs, swiftmodules. -/
def linkerImplicitDeps (t : Target) (otherFiles : List SourceFile)
    (inputDeps : List String) : List String :=
  (sharedLinkableDeps t.classifiedDeps.linkableDeps).map
      (fun d => d.depOutput) ++
    (match otherFiles.find? (fun sf => sf.isDefType) with
      | some df => [df.value]
      | Option.none => []) ++
    (t.allLibs.filter (fun l => l.isSourceFile)).map (fun l => l.value) ++
    t.classifiedDeps.frameworkDeps ++
    inputDeps ++
    transitiveRustLibs t ++
    linkerSwiftModules t

/-- The rule name of the link edge (toolchain prefix + final-output tool). -/
def linkRule (t : Target) : String := t.rulePfx ++ t.finalOutputToolName

/-- The explicit inputs of the link edge: the object files, the source-set
extra objects, then direct link-outputs of linkable deps. -/
def linkerExplicitIns (t : Target) (objectFiles : List String) :
    List String :=
  objectFiles ++ t.classifiedDeps.extraObjectFiles ++
    (directLinkableDeps t.classifiedDeps.linkableDeps).map
      (fun d => d.linkOutput)

/-- The language-sensitive tail variables of the link edge (`ldflags`,
`libs`, `frameworks`, `swiftmodules` for final binaries; `arflags` for
static libraries). -/
def linkerTailVars (t : Target) (optionalDefFile : Option SourceFile) :
    List Stmt :=
  if t.outputType == OutputType.executable ||
      t.outputType == OutputType.sharedLibrary ||
      t.outputType == OutputType.loadableModule then
    [Stmt.varLine "ldflags" (t.ldflagsWith optionalDefFile),
     Stmt.varLine "libs" t.libsStr,
     Stmt.varLine "frameworks" t.frameworksStr,
     Stmt.varFiles "swiftmodules" (linkerSwiftModules t)]
  else if t.outputType == OutputType.staticLibrary then
    [Stmt.varLine "arflags" t.arflagsStr]
  else
    []

/-- The link edge's pool override. -/
def linkPoolStmts (t : Target) : List Stmt :=
  match t.linkPoolVar with
  | some p => [Stmt.varLine "pool" p]
  | Option.none => []

/-- `NinjaCBinaryTargetWriter::WriteLinkerStuff`. -/
def writeLinkerStuff (t : Target) (objectFiles : List String)
    (otherFiles : List SourceFile) (inputDeps : List String) : List Stmt :=
  let optionalDefFile := otherFiles.find? (fun sf => sf.isDefType)
  let edge := Stmt.buildEdge t.linkerOutputs (linkRule t)
    (linkerExplicitIns t objectFiles)
    (linkerImplicitDeps t otherFiles inputDeps)
    t.classifiedDeps.nonLinkableDeps
  [edge] ++ linkerTailVars t optionalDefFile ++
    [Stmt.varLine "output_extension" t.outputExtensionStr,
     Stmt.varLine "output_dir" t.outputDirStr] ++
    writeLibsList "solibs" (linkerSolibs t) ++
    writeLibsList "rlibs" (transitiveRustLibs t) ++
    linkPoolStmts t

/-- The first path whose insertion into the seen-set fails, scanning in
order (`CheckForDuplicateObjectFiles`'s `std::set` loop). -/
def firstDuplicate : List String → List String → Option String
  | [], _ => Option.none
  | f :: rest, seen =>
    if seen.contains f then some f else firstDuplicate rest (f :: seen)

/-- The structured duplicate-object error, naming the target label and the
duplicate path as the writer's `Err` message does. -/
def mkDuplicateObjectErr (label path : String) : SchedulerErr :=
  { header := "Duplicate object file",
    message := "The target " ++ label ++
      "\ngenerates two object files with the same name:\n  " ++ path ++
      "\n\nIt could be you accidentally have a file listed twice in the\n" ++
      "sources. Or, depending on how your toolchain maps sources to\n" ++
      "object files, two source files with the same name in different\n" ++
      "directories could map to the same object file.\n\n" ++
      "In the latter case, either rename one of the files or move one of\n" ++
      "the sources to a separate source_set to avoid them both being in\n" ++
      "the same target." }

/-- `NinjaCBinaryTargetWriter::CheckForDuplicateObjectFiles`: the error
handed to `Scheduler::FailWithError`, or `none` when all paths are
distinct. -/
def checkForDuplicateObjectFiles (t : Target) (files : List String) :
    Option SchedulerErr :=
  (firstDuplicate files []).map (fun p => mkDuplicateObjectErr t.label p)

/-- Modelled from the spec: `WriteSourceSetStamp` lives in the base class
`NinjaBinaryTargetWriter` (not among the sources under verification); per
the spec it "emit[s a] stamp edge aggregating object files". -/
def writeSourceSetStamp (t : Target) (objectFiles : List String) :
    List Stmt :=
  [Stmt.buildEdge [t.sourceSetStampOutput] (t.rulePfx ++ kGeneralToolStamp)
    objectFiles [] []]

/-- The PCH block of `Run`: statements, MSVC object outputs, GCC gch
outputs. -/
def pchTriple (t : Target) : List Stmt × List String × List String :=
  writePCHCommands t t.inputDeps t.orderOnlyDeps

/-- `pch_obj_files` in `Run`: object-file outputs of MSVC-dialect PCH
edges. -/
def msvcPchOutputs (t : Target) : List String := (pchTriple t).2.1

/-- `pch_other_files` in `Run`: `.gch` outputs of GCC-dialect PCH edges. -/
def gccPchOutputs (t : Target) : List String := (pchTriple t).2.2

/-- `pch_files` in `Run`: the PCH output set exposed to source compiles
(MSVC object outputs if any, otherwise the gch outputs). -/
def pchFilesOf (t : Target) : List String :=
  if !(msvcPchOutputs t).isEmpty then msvcPchOutputs t else gccPchOutputs t

/-- The source block of `Run`: the C-family writer for non-Swift targets,
the Swift writer otherwise. -/
def sourceBlock (t : Target) (moduleDepInfo : List ModuleDep) :
    List Stmt × List String × List SourceFile :=
  if !t.swiftSourceUsed then
    writeSources t (pchFilesOf t) t.inputDeps t.orderOnlyDeps moduleDepInfo
  else
    let (s, objs) := writeSwiftSources t t.inputDeps t.orderOnlyDeps
    (s, objs, [])

/-- The object files contributed by the source block alone. -/
def sourceObjectFiles (t : Target) (moduleDepInfo : List ModuleDep) :
    List String :=
  (sourceBlock t moduleDepInfo).2.1

/-- The statements, final object-file list and "other" files accumulated by
`Run` up to (and including) the source block — everything before the
duplicate-object check.  The final object list is the source-block objects
followed by the MSVC PCH objects (line 204). -/
def emitCore (t : Target) (moduleDepInfo : List ModuleDep) :
    List Stmt × List String × List SourceFile :=
  (writeCompilerVars t moduleDepInfo ++ t.inputsStampStmts ++
      t.inputDepsStampStmts ++ (pchTriple t).1 ++
      (sourceBlock t moduleDepInfo).1,
   sourceObjectFiles t moduleDepInfo ++ msvcPchOutputs t,
   (sourceBlock t moduleDepInfo).2.2)

/-- The final object-file list handed to the duplicate check and the
terminal block. -/
def finalObjectFiles (t : Target) (moduleDepInfo : List ModuleDep) :
    List String :=
  (emitCore t moduleDepInfo).2.1

/-- The "other" (def-type) files collected by the source block. -/
def otherFilesOf (t : Target) (moduleDepInfo : List ModuleDep) :
    List SourceFile :=
  (emitCore t moduleDepInfo).2.2

/-- The outcome of one emission: the emitted statements and the error (if
any) reported to the scheduler. -/
structure EmitOutcome where
  stmts : List Stmt
  schedulerErr : Option SchedulerErr
deriving DecidableEq, Repr

/-- `NinjaCBinaryTargetWriter::Run`.  A fatal `CHECK` failure is the
`Except.error` branch (process abort); a duplicate-object failure reports
through the scheduler channel and stops before the terminal stamp/link
block. -/
def runEmit (t : Target) : Except String EmitOutcome := do
  let moduleDepInfo ← getModuleDepsInformation t
  match checkForDuplicateObjectFiles t (finalObjectFiles t moduleDepInfo) with
  | some e => Except.ok ⟨(emitCore t moduleDepInfo).1, some e⟩
  | Option.none =>
    if t.outputType == OutputType.sourceSet then
      Except.ok ⟨(emitCore t moduleDepInfo).1 ++
        writeSourceSetStamp t (finalObjectFiles t moduleDepInfo),
        Option.none⟩
    else
      Except.ok ⟨(emitCore t moduleDepInfo).1 ++
        writeLinkerStuff t (finalObjectFiles t moduleDepInfo)
          (otherFilesOf t moduleDepInfo) t.inputDeps,
        Option.none⟩

def spaceJoin (l : List String) : String :=
  String.join (l.map (fun x => " " ++ x))

/-- Rendering of one statement to the executor's text format. -/
def renderStmt : Stmt → String
  | Stmt.buildEdge outs rule expl impl oo =>
    "build" ++ spaceJoin outs ++ ": " ++ rule ++ spaceJoin expl ++
      (if impl.isEmpty then "" else " |" ++ spaceJoin impl) ++
      (if oo.isEmpty then "" else " ||" ++ spaceJoin oo) ++ "\n"
  | Stmt.varLine n v => "  " ++ n ++ " = " ++ v ++ "\n"
  | Stmt.varFiles n fs => "  " ++ n ++ " =" ++ spaceJoin fs ++ "\n"
  | Stmt.blank => "\n"

def renderStmts (l : List Stmt) : String := String.join (l.map renderStmt)

/-- Running the emitter appending to an output buffer: the buffer grows by
the rendered statements; the scheduler error (if any) is reported
alongside. -/
def emitIntoBuffer (buf : String) (t : Target) :
    Except String (String × Option SchedulerErr) :=
  (runEmit t).map (fun o => (buf ++ renderStmts o.stmts, o.schedulerErr))

/-! Concrete targets used to exercise the emitter.  `baseTarget` is a
minimal executable target with every external service empty; the per-claim
targets below override the relevant fields. -/

def baseTarget : Target where
  label := "//foo:bar"
  outputType := OutputType.executable
  sources := []
  outputsForSource := fun _ => Option.none
  hasPrecompiledHeaders := false
  precompiledSource := ⟨"build/precompile.cc", SourceType.cpp⟩
  precompiledHeader := "build/precompile.h"
  getToolAsC := fun _ => Option.none
  usedSubstitution := fun _ => false
  pchOutputFiles := fun _ => []
  cflagsFor := fun _ => ""
  winPchObjExt := fun _ obj => obj
  gccPchExt := fun _ => ".gch"
  ccCompilerVarStmts := []
  sharedVarStmts := []
  inputsStampStmts := []
  inputDeps := []
  inputDepsStampStmts := []
  orderOnlyDeps := []
  poolVar := Option.none
  linkedDeps := []
  swiftToolName := "swift"
  swiftModuleOutputFile := "obj/foo/Bar.swiftmodule"
  swiftToolResolvedOutputs := []
  swiftHasPartialOutputs := false
  swiftPartialOutputsFor := fun _ => []
  swiftImportedModuleDeps := []
  buildsSwiftModule := false
  classifiedDeps := ⟨[], [], [], [], []⟩
  linkerOutputs := ["./bar"]
  rulePfx := "toolchain_"
  finalOutputToolName := "link"
  allLibs := []
  isFinal := true
  inheritedLibraries := []
  ldflagsWith := fun _ => ""
  libsStr := ""
  frameworksStr := ""
  arflagsStr := ""
  outputExtensionStr := ""
  outputDirStr := "obj/foo"
  linkPoolVar := Option.none
  sourceSetStampOutput := "obj/foo/bar.stamp"

/-! ### Helper lemmas -/

/-- Case analysis on a successful run: either the duplicate check fired (the
outcome is the core statements plus the error), or it did not and the
terminal stamp/link block was appended. -/
theorem runEmit_ok_cases (t : Target) (mds : List ModuleDep)
    (o : EmitOutcome)
    (hm : getModuleDepsInformation t = Except.ok mds)
    (hrun : runEmit t = Except.ok o) :
    (∃ e, checkForDuplicateObjectFiles t (finalObjectFiles t mds) = some e ∧
        o = ⟨(emitCore t mds).1, some e⟩) ∨
    (checkForDuplicateObjectFiles t (finalObjectFiles t mds) =
        Option.none ∧
      ((t.outputType = OutputType.sourceSet ∧
          o = ⟨(emitCore t mds).1 ++
            writeSourceSetStamp t (finalObjectFiles t mds), Option.none⟩) ∨
        (t.outputType ≠ OutputType.sourceSet ∧
          o = ⟨(emitCore t mds).1 ++
            writeLinkerStuff t (finalObjectFiles t mds) (otherFilesOf t mds)
              t.inputDeps, Option.none⟩))) := by
  unfold runEmit at hrun
  rw [hm] at hrun
  simp only [bind, Except.bind] at hrun
  cases h : checkForDuplicateObjectFiles t (finalObjectFiles t mds) with
  | none =>
    rw [h] at hrun
    by_cases hss : t.outputType = OutputType.sourceSet
    · simp only [hss, beq_self_eq_true, if_true] at hrun
      exact Or.inr ⟨rfl, Or.inl ⟨hss, (Except.ok.injEq _ _).mp hrun.symm⟩⟩
    · have : (t.outputType == OutputType.sourceSet) = false := by
        simpa using hss
      simp only [this, Bool.false_eq_true, if_false] at hrun
      exact Or.inr ⟨rfl, Or.inr ⟨hss, (Except.ok.injEq _ _).mp hrun.symm⟩⟩
  | some e =>
    rw [h] at hrun
    exact Or.inl ⟨e, rfl, (Except.ok.injEq _ _).mp hrun.symm⟩

/-- A successful outcome always extends the core statements. -/
theorem runEmit_stmts_ext (t : Target) (mds : List ModuleDep)
    (o : EmitOutcome)
    (hm : getModuleDepsInformation t = Except.ok mds)
    (hrun : runEmit t = Except.ok o) :
    ∃ tail, o.stmts = (emitCore t mds).1 ++ tail := by
  rcases runEmit_ok_cases t mds o hm hrun with ⟨e, _, ho⟩ |
    ⟨_, ⟨_, ho⟩ | ⟨_, ho⟩⟩
  · exact ⟨[], by simp [ho]⟩
  · exact ⟨writeSourceSetStamp t (finalObjectFiles t mds), by simp [ho]⟩
  · exact ⟨writeLinkerStuff t (finalObjectFiles t mds) (otherFilesOf t mds)
      t.inputDeps, by simp [ho]⟩

/-! ### Claim C9 -/

/-- Claim C9: emission is deterministic.  Running the emitter twice on the
same resolved target into two output buffers appends the same bytes to each
buffer and reports the same scheduler status (or fails with the same fatal
check in both runs). -/
theorem C9_deterministic_emission (t : Target) (b1 b2 : String) :
    (∃ s e, emitIntoBuffer b1 t = Except.ok (b1 ++ s, e) ∧
        emitIntoBuffer b2 t = Except.ok (b2 ++ s, e)) ∨
    (∃ m, emitIntoBuffer b1 t = Except.error m ∧
        emitIntoBuffer b2 t = Except.error m) := by
  unfold emitIntoBuffer
  cases h : runEmit t with
  | ok o =>
    exact Or.inl ⟨renderStmts o.stmts, o.schedulerErr,
      by simp [h, Except.map], by simp [h, Except.map]⟩
  | error m =>
    exact Or.inr ⟨m, by simp [h, Except.map], by simp [h, Except.map]⟩

/-! ### Claim C1 -/

/-- Target with two sources mapping to the same object file. -/
def exC1 : Target := { baseTarget with
  sources := [⟨"a.cc", SourceType.cpp⟩, ⟨"b.cc", SourceType.cpp⟩],
  outputsForSource := fun _ => some ("cxx", ["obj/foo/x.o"]) }

/-- Variant of `exC1` used to instantiate the amended claim. -/
def exC1w : Target := { baseTarget with
  label := "//foo:dup",
  sources := [⟨"sub/x.cc", SourceType.cpp⟩, ⟨"x.cc", SourceType.cpp⟩],
  outputsForSource := fun _ => some ("cxx", ["obj/foo/x.o"]) }

/-- Claim C1 counterexample: on a target whose two sources collide on
`obj/foo/x.o`, the run reports the duplicate-object error, yet build edges
(the per-source compile edges) HAVE been emitted into the buffer — the
claim's "no build edges are emitted for that target" is false. -/
theorem C1_counterexample :
    (runEmit exC1).toOption.map
        (fun o => (o.schedulerErr.isSome, o.stmts.any Stmt.isBuildEdge)) =
      some (true, true) := by rfl

/-- Claim C1 (amended): if the final object list has a duplicate, the run
reports the duplicate-object error naming the target label and the first
duplicated path, and stops before the terminal block — the emitted
statements are exactly the core block (compile edges already written
remain; no stamp or link edge is appended).  If the final object list has
no duplicate, no error is reported and the terminal block is emitted. -/
theorem C1_duplicate_object_detection (t : Target) (mds : List ModuleDep)
    (hm : getModuleDepsInformation t = Except.ok mds) :
    (∀ p, firstDuplicate (finalObjectFiles t mds) [] = some p →
      runEmit t = Except.ok ⟨(emitCore t mds).1,
        some (mkDuplicateObjectErr t.label p)⟩) ∧
    (firstDuplicate (finalObjectFiles t mds) [] = Option.none →
      runEmit t = Except.ok ⟨(emitCore t mds).1 ++
        (if t.outputType == OutputType.sourceSet then
          writeSourceSetStamp t (finalObjectFiles t mds)
        else
          writeLinkerStuff t (finalObjectFiles t mds) (otherFilesOf t mds)
            t.inputDeps),
        Option.none⟩) := by
  constructor
  · intro p hp
    unfold runEmit
    rw [hm]
    simp only [bind, Except.bind, checkForDuplicateObjectFiles, hp,
      Option.map_some, Option.map_some', Option.map]
  · intro hp
    unfold runEmit
    rw [hm]
    simp only [bind, Except.bind, checkForDuplicateObjectFiles, hp,
      Option.map_none, Option.map_none', Option.map]
    by_cases hss : t.outputType = OutputType.sourceSet <;>
      simp [hss]

/-- Witness for the amended C1 at a concrete duplicate-producing target. -/
theorem C1_duplicate_object_detection_witness :
    runEmit exC1w = Except.ok ⟨(emitCore exC1w []).1,
      some (mkDuplicateObjectErr "//foo:dup" "obj/foo/x.o")⟩ :=
  (C1_duplicate_object_detection exC1w [] (by rfl)).1 "obj/foo/x.o" (by rfl)

/-! ### Claim C8 -/

/-- Target exporting a module-map for which the toolchain yields zero
outputs. -/
def exC8 : Target := { baseTarget with
  sources := [⟨"a.modulemap", SourceType.modulemap⟩],
  outputsForSource := fun _ => some ("cxx_module", []) }

/-- Claim C8 counterexample: when the module-map source yields zero
outputs, the emitter does NOT report through the shared error channel —
the fatal `CHECK(modulemap_outputs.size() == 1u)` aborts the process (the
`Except.error` branch), so no `EmitOutcome` (and no scheduler error)
exists. -/
theorem C8_counterexample :
    runEmit exC8 = Except.error checkMsgModulemapOutputsSize ∧
    (runEmit exC8).toOption = Option.none := by
  exact ⟨by rfl, by rfl⟩

/-- Claim C8 (amended): when a target exports a module-map whose source
yields a number of outputs different from one, emission dies on the
`CHECK(modulemap_outputs.size() == 1u)` assertion — a process abort, not a
report through the shared error channel. -/
theorem C8_modulemap_output_check (t : Target) (mm : SourceFile)
    (toolName : String) (outs : List String)
    (hused : t.sourceTypeUsed SourceType.modulemap = true)
    (hmm : getModuleMapFromTargetSources t.sources = some mm)
    (houts : t.outputsForSource mm = some (toolName, outs))
    (hlen : outs.length ≠ 1) :
    runEmit t = Except.error checkMsgModulemapOutputsSize := by
  have hadd : mdAdd t.asMDTarget true =
      Except.error checkMsgModulemapOutputsSize := by
    unfold mdAdd Target.asMDTarget
    simp only [hmm, houts, if_neg hlen]
  unfold runEmit getModuleDepsInformation
  simp only [hused, if_true, hadd, bind, Except.bind]

/-- Witness for the amended C8 at the concrete zero-output target. -/
theorem C8_modulemap_output_check_witness :
    runEmit exC8 = Except.error checkMsgModulemapOutputsSize :=
  C8_modulemap_output_check exC8 ⟨"a.modulemap", SourceType.modulemap⟩
    "cxx_module" [] (by rfl) (by rfl) (by rfl) (by decide)

/-! ### Claim C6 -/

/-- Modularized target (module-map plus a C++ source) on a toolchain that
does NOT declare the module-deps substitutions as used. -/
def exC6 : Target := { baseTarget with
  sources := [⟨"a.modulemap", SourceType.modulemap⟩,
    ⟨"a.cc", SourceType.cpp⟩],
  outputsForSource := fun s =>
    if s.value = "a.modulemap" then some ("cxx_module", ["obj/foo/a.pcm"])
    else if s.value = "a.cc" then some ("cxx", ["obj/foo/a.o"])
    else Option.none }

/-- Claim C6 counterexample: module-dep records exist and the target has
C++ sources, yet the variable block emits NO module-file substitution
variable, because the toolchain's substitution bits do not mark
`module_deps` / `module_deps_no_self` as used. -/
theorem C6_counterexample :
    (getModuleDepsInformation exC6).toOption.map (fun mds =>
      (mds.isEmpty, exC6.sourceTypeUsed SourceType.cpp,
       (writeCompilerVars exC6 mds).filter (fun st =>
         match st with
         | Stmt.varLine n _ =>
           n == ninjaNameModuleDeps || n == ninjaNameModuleDepsNoSelf
         | _ => false))) = some (false, true, []) := by rfl

/-- Claim C6 (amended): when module-dep records exist, the target has C++
or module-map sources, AND the toolchain marks the corresponding
substitution as used, the variable block emits the two module-file
variables — one over all records, one excluding the self record — each
beginning with `-Xclang -fmodules-embed-all-files` followed by one
` -fmodule-file=<pcm>` per selected record. -/
theorem C6_module_deps_variables (t : Target) (mds : List ModuleDep)
    (hne : mds.isEmpty = false)
    (hsrc : (t.sourceTypeUsed SourceType.cpp ||
      t.sourceTypeUsed SourceType.modulemap) = true)
    (hu1 : t.usedSubstitution ninjaNameModuleDeps = true)
    (hu2 : t.usedSubstitution ninjaNameModuleDepsNoSelf = true) :
    Stmt.varLine ninjaNameModuleDeps (moduleDepsValue mds true) ∈
        writeCompilerVars t mds ∧
    Stmt.varLine ninjaNameModuleDepsNoSelf (moduleDepsValue mds false) ∈
        writeCompilerVars t mds ∧
    moduleDepsValue mds true = "-Xclang -fmodules-embed-all-files" ++
      String.join (mds.map (fun md => " -fmodule-file=" ++ md.pcm)) ∧
    moduleDepsValue mds false = "-Xclang -fmodules-embed-all-files" ++
      String.join ((mds.filter (fun md => !md.isSelf)).map
        (fun md => " -fmodule-file=" ++ md.pcm)) := by
  unfold writeCompilerVars writeModuleDepsSubstitution
  simp only [hne, Bool.not_false, hsrc, Bool.and_self, if_true, hu1, hu2,
    Bool.true_and]
  refine ⟨?_, ?_, ?_, ?_⟩
  · simp [List.mem_append]
  · simp [List.mem_append]
  · unfold moduleDepsValue
    simp [List.filter_true]
  · unfold moduleDepsValue
    simp [Bool.or_false]

/-- Toolchain variant of `exC6` that does use the two substitutions. -/
def exC6w : Target := { exC6 with
  usedSubstitution := fun n =>
    n == ninjaNameModuleDeps || n == ninjaNameModuleDepsNoSelf }

/-- The module-dep records of `exC6w`. -/
def exC6wMds : List ModuleDep :=
  [⟨⟨"a.modulemap", SourceType.modulemap⟩, "//foo:bar", "obj/foo/a.pcm",
    true⟩]

/-- Witness for the amended C6 at a concrete modularized target. -/
theorem C6_module_deps_variables_witness :
    Stmt.varLine ninjaNameModuleDeps (moduleDepsValue exC6wMds true) ∈
        writeCompilerVars exC6w exC6wMds ∧
    Stmt.varLine ninjaNameModuleDepsNoSelf
        (moduleDepsValue exC6wMds false) ∈
        writeCompilerVars exC6w exC6wMds ∧
    moduleDepsValue exC6wMds true = "-Xclang -fmodules-embed-all-files" ++
      String.join (exC6wMds.map (fun md => " -fmodule-file=" ++ md.pcm)) ∧
    moduleDepsValue exC6wMds false =
      "-Xclang -fmodules-embed-all-files" ++
      String.join ((exC6wMds.filter (fun md => !md.isSelf)).map
        (fun md => " -fmodule-file=" ++ md.pcm)) :=
  C6_module_deps_variables exC6w exC6wMds (by rfl) (by rfl) (by rfl)
    (by rfl)

/-! ### Claim C3 -/

/-- The build edges of a statement list carrying a given rule name. -/
def edgesWithRule (stmts : List Stmt) (r : String) : List Stmt :=
  stmts.filter (fun st => st.isBuildEdge && st.ruleOf == some r)

theorem edgesWithRule_append (l1 l2 : List Stmt) (r : String) :
    edgesWithRule (l1 ++ l2) r = edgesWithRule l1 r ++ edgesWithRule l2 r :=
  by simp [edgesWithRule, List.filter_append]

/-- The condition under which one language block of `WritePCHCommands`
emits its edge: the tool exists, its dialect passes the block's test and is
not `none`, the target uses sources of the language, and the tool yields
PCH outputs. -/
def pchBlockCond (t : Target) (toolName : String)
    (dialectOK : PCHType → Bool) (srcTy : SourceType) : Bool :=
  match t.getToolAsC toolName with
  | some tool =>
    dialectOK tool.precompiledHeaderType && t.sourceTypeUsed srcTy &&
      tool.precompiledHeaderType != PCHType.pchNone &&
      !(t.pchOutputFiles toolName).isEmpty
  | Option.none => false

theorem edgesWithRule_pchBlock_self (t : Target)
    (flagName toolName : String) (dOK : PCHType → Bool)
    (srcTy : SourceType) (i o : List String) :
    edgesWithRule (writePCHBlock t flagName toolName dOK srcTy i o).1
        toolName =
      if pchBlockCond t toolName dOK srcTy then
        [Stmt.buildEdge (t.pchOutputFiles toolName) toolName
          [t.precompiledSource.value] i o]
      else [] := by
  unfold writePCHBlock pchBlockCond
  cases ht : t.getToolAsC toolName with
  | none => simp [edgesWithRule]
  | some tool =>
    by_cases hd : dOK tool.precompiledHeaderType = true <;>
      by_cases hs : t.sourceTypeUsed srcTy = true <;>
      by_cases ho2 : (t.pchOutputFiles toolName).isEmpty = true <;>
      cases htype : tool.precompiledHeaderType <;>
      simp_all [writePCHCommand, writeGCCPCHCommand, writeWindowsPCHCommand,
        edgesWithRule, Stmt.isBuildEdge, Stmt.ruleOf, List.filter]

theorem edgesWithRule_pchBlock_ne (t : Target)
    (flagName toolName : String) (dOK : PCHType → Bool)
    (srcTy : SourceType) (i o : List String) (r : String)
    (hr : r ≠ toolName) :
    edgesWithRule (writePCHBlock t flagName toolName dOK srcTy i o).1 r =
      [] := by
  have hr2 : toolName ≠ r := Ne.symm hr
  rcases ht : t.getToolAsC toolName with _ | tool
  · simp [writePCHBlock, ht, edgesWithRule]
  · rcases htype : tool.precompiledHeaderType with _ | _ | _ <;>
      by_cases hemp : t.pchOutputFiles toolName = [] <;>
      simp [writePCHBlock, ht, writePCHCommand, htype, writeGCCPCHCommand,
        writeWindowsPCHCommand, hemp, edgesWithRule, Stmt.isBuildEdge,
        Stmt.ruleOf, List.filter_cons, List.filter_nil, hr2, apply_ite,
        ite_self]

/-- An ObjC tool declaring the MSVC PCH dialect. -/
def objcMsvcTool : CTool := ⟨PCHType.pchMsvc⟩

/-- Target with ObjC sources, precompiled headers configured, and an ObjC
tool whose PCH dialect is MSVC (not `none`). -/
def exC3 : Target := { baseTarget with
  sources := [⟨"a.m", SourceType.m⟩],
  hasPrecompiledHeaders := true,
  precompiledSource := ⟨"build/precompile.m", SourceType.m⟩,
  getToolAsC := fun n =>
    if n = kCToolObjC then some objcMsvcTool else Option.none,
  pchOutputFiles := fun n =>
    if n = kCToolObjC then ["obj/build/bar.precompile.m.obj"] else [] }

/-- Claim C3 counterexample: the ObjC tool declares a PCH dialect other
than `none` (MSVC) and the target has ObjC sources and PCH outputs, yet
the PCH writer emits NO build edge at all — the ObjC/ObjC++ blocks require
the GCC dialect specifically, not merely a dialect other than `none`. -/
theorem C3_counterexample :
    exC3.getToolAsC kCToolObjC = some objcMsvcTool ∧
    objcMsvcTool.precompiledHeaderType ≠ PCHType.pchNone ∧
    exC3.sourceTypeUsed SourceType.m = true ∧
    exC3.hasPrecompiledHeaders = true ∧
    exC3.pchOutputFiles kCToolObjC ≠ [] ∧
    (writePCHCommands exC3 [] []).1 = [] := by
  refine ⟨by rfl, by decide, by rfl, by rfl, by simp [exC3], by rfl⟩

/-- Claim C3 (amended): for each of the four language tool-kinds, the PCH
writer emits exactly one PCH build edge — compiling the target's
precompiled-header source with that language's compile tool — precisely
when the target configures precompiled headers, the tool exists, the
target has sources of the language, the tool yields PCH outputs, and the
tool's dialect passes the per-language test: any dialect other than `none`
for C and C++, but exactly the GCC dialect for ObjC and ObjC++. -/
theorem C3_pch_block_emission (t : Target) (i o : List String) :
    (edgesWithRule (writePCHCommands t i o).1 kCToolCc =
      if t.hasPrecompiledHeaders &&
          pchBlockCond t kCToolCc (fun h => h != PCHType.pchNone)
            SourceType.c then
        [Stmt.buildEdge (t.pchOutputFiles kCToolCc) kCToolCc
          [t.precompiledSource.value] i o]
      else []) ∧
    (edgesWithRule (writePCHCommands t i o).1 kCToolCxx =
      if t.hasPrecompiledHeaders &&
          pchBlockCond t kCToolCxx (fun h => h != PCHType.pchNone)
            SourceType.cpp then
        [Stmt.buildEdge (t.pchOutputFiles kCToolCxx) kCToolCxx
          [t.precompiledSource.value] i o]
      else []) ∧
    (edgesWithRule (writePCHCommands t i o).1 kCToolObjC =
      if t.hasPrecompiledHeaders &&
          pchBlockCond t kCToolObjC (fun h => h == PCHType.pchGcc)
            SourceType.m then
        [Stmt.buildEdge (t.pchOutputFiles kCToolObjC) kCToolObjC
          [t.precompiledSource.value] i o]
      else []) ∧
    (edgesWithRule (writePCHCommands t i o).1 kCToolObjCxx =
      if t.hasPrecompiledHeaders &&
          pchBlockCond t kCToolObjCxx (fun h => h == PCHType.pchGcc)
            SourceType.mm then
        [Stmt.buildEdge (t.pchOutputFiles kCToolObjCxx) kCToolObjCxx
          [t.precompiledSource.value] i o]
      else []) := by
  by_cases hp : t.hasPrecompiledHeaders = true
  · unfold writePCHCommands
    simp only [hp, Bool.not_true, Bool.false_eq_true, if_false,
      Bool.true_and]
    refine ⟨?_, ?_, ?_, ?_⟩
    · rw [edgesWithRule_append, edgesWithRule_append, edgesWithRule_append,
        edgesWithRule_pchBlock_self,
        edgesWithRule_pchBlock_ne t ninjaNameCFlagsCc kCToolCxx _ _ i o
          kCToolCc (by decide),
        edgesWithRule_pchBlock_ne t ninjaNameCFlagsObjC kCToolObjC _ _ i o
          kCToolCc (by decide),
        edgesWithRule_pchBlock_ne t ninjaNameCFlagsObjCc kCToolObjCxx _ _
          i o kCToolCc (by decide)]
      simp
    · rw [edgesWithRule_append, edgesWithRule_append, edgesWithRule_append,
        edgesWithRule_pchBlock_ne t ninjaNameCFlagsC kCToolCc _ _ i o
          kCToolCxx (by decide),
        edgesWithRule_pchBlock_self,
        edgesWithRule_pchBlock_ne t ninjaNameCFlagsObjC kCToolObjC _ _ i o
          kCToolCxx (by decide),
        edgesWithRule_pchBlock_ne t ninjaNameCFlagsObjCc kCToolObjCxx _ _
          i o kCToolCxx (by decide)]
      simp
    · rw [edgesWithRule_append, edgesWithRule_append, edgesWithRule_append,
        edgesWithRule_pchBlock_ne t ninjaNameCFlagsC kCToolCc _ _ i o
          kCToolObjC (by decide),
        edgesWithRule_pchBlock_ne t ninjaNameCFlagsCc kCToolCxx _ _ i o
          kCToolObjC (by decide),
        edgesWithRule_pchBlock_self,
        edgesWithRule_pchBlock_ne t ninjaNameCFlagsObjCc kCToolObjCxx _ _
          i o kCToolObjC (by decide)]
      simp
    · rw [edgesWithRule_append, edgesWithRule_append, edgesWithRule_append,
        edgesWithRule_pchBlock_ne t ninjaNameCFlagsC kCToolCc _ _ i o
          kCToolObjCxx (by decide),
        edgesWithRule_pchBlock_ne t ninjaNameCFlagsCc kCToolCxx _ _ i o
          kCToolObjCxx (by decide),
        edgesWithRule_pchBlock_ne t ninjaNameCFlagsObjC kCToolObjC _ _ i o
          kCToolObjCxx (by decide),
        edgesWithRule_pchBlock_self]
      simp
  · have hp2 : t.hasPrecompiledHeaders = false := by simpa using hp
    unfold writePCHCommands
    simp [hp2, edgesWithRule]

/-! ### Claim C4 -/

/-- A C tool declaring the GCC PCH dialect. -/
def ccGccTool : CTool := ⟨PCHType.pchGcc⟩

/-- A C++ tool declaring the MSVC PCH dialect. -/
def cxxMsvcTool : CTool := ⟨PCHType.pchMsvc⟩

/-- Target producing both a GCC `.gch` PCH output (for C) and an MSVC PCH
object output (for C++). -/
def exC4 : Target := { baseTarget with
  sources := [⟨"a.c", SourceType.c⟩, ⟨"b.cc", SourceType.cpp⟩],
  outputsForSource := fun s =>
    if s.value = "a.c" then some ("cc", ["obj/foo/a.o"])
    else if s.value = "b.cc" then some ("cxx", ["obj/foo/b.o"])
    else Option.none,
  hasPrecompiledHeaders := true,
  getToolAsC := fun n =>
    if n = kCToolCc then some ccGccTool
    else if n = kCToolCxx then some cxxMsvcTool
    else Option.none,
  pchOutputFiles := fun n =>
    if n = kCToolCc then ["obj/build/precompile.h.gch"]
    else if n = kCToolCxx then ["obj/build/precompile.cc.obj"]
    else [] }

/-- Claim C4: `.gch` outputs of GCC-dialect PCH edges never enter the final
object-file list (they are kept in the separate "other" set and never
appended), while MSVC-dialect PCH object outputs always enter the final
object list and hence the explicit inputs of the link edge.  The `.gch`
path is assumed distinct from the per-source objects and the MSVC outputs,
as its `.gch` extension guarantees in practice. -/
theorem C4_pch_object_flow (t : Target) (mds : List ModuleDep) (g : String)
    (hg : g ∈ gccPchOutputs t)
    (h1 : g ∉ sourceObjectFiles t mds)
    (h2 : g ∉ msvcPchOutputs t) :
    g ∉ finalObjectFiles t mds ∧
    (∀ m ∈ msvcPchOutputs t, m ∈ finalObjectFiles t mds ∧
      m ∈ linkerExplicitIns t (finalObjectFiles t mds)) := by
  have hfin : finalObjectFiles t mds =
      sourceObjectFiles t mds ++ msvcPchOutputs t := rfl
  constructor
  · rw [hfin]
    intro hmem
    rcases List.mem_append.mp hmem with h | h
    · exact h1 h
    · exact h2 h
  · intro m hmem
    have hm2 : m ∈ finalObjectFiles t mds := by
      rw [hfin]
      exact List.mem_append_right _ hmem
    refine ⟨hm2, ?_⟩
    unfold linkerExplicitIns
    exact List.mem_append_left _ (List.mem_append_left _ hm2)

/-- Witness for C4 at a concrete mixed-dialect target. -/
theorem C4_pch_object_flow_witness :
    "obj/build/precompile.h.gch" ∉ finalObjectFiles exC4 [] ∧
    (∀ m ∈ msvcPchOutputs exC4, m ∈ finalObjectFiles exC4 [] ∧
      m ∈ linkerExplicitIns exC4 (finalObjectFiles exC4 [])) :=
  C4_pch_object_flow exC4 [] "obj/build/precompile.h.gch" (by decide)
    (by decide) (by decide)

/-! ### Claim C2 -/

/-- Claim C2: for every linkable dep that is neither a Rust library nor a
proc-macro, the link edge places it as follows: if its dependency-output
differs from its link-output, the dependency-output is an implicit input
and the link-output is in the `solibs` tail variable — paired, because the
two lists are parallel images of the same filtered dep list; otherwise the
link-output is an explicit input of the link edge. -/
theorem C2_linkable_dep_placement (t : Target) (mds : List ModuleDep)
    (o : EmitOutcome) (d : LinkableDep)
    (hm : getModuleDepsInformation t = Except.ok mds)
    (hrun : runEmit t = Except.ok o)
    (hnodup : o.schedulerErr = Option.none)
    (hss : t.outputType ≠ OutputType.sourceSet)
    (hd : d ∈ t.classifiedDeps.linkableDeps)
    (hr1 : d.outputType ≠ OutputType.rustLibrary)
    (hr2 : d.outputType ≠ OutputType.rustProcMacro) :
    Stmt.buildEdge t.linkerOutputs (linkRule t)
        (linkerExplicitIns t (finalObjectFiles t mds))
        (linkerImplicitDeps t (otherFilesOf t mds) t.inputDeps)
        t.classifiedDeps.nonLinkableDeps ∈ o.stmts ∧
    (d.depOutput ≠ d.linkOutput →
      d.depOutput ∈ linkerImplicitDeps t (otherFilesOf t mds) t.inputDeps ∧
      d.linkOutput ∈ linkerSolibs t ∧
      Stmt.varFiles "solibs" (linkerSolibs t) ∈ o.stmts ∧
      linkerSolibs t =
        (sharedLinkableDeps t.classifiedDeps.linkableDeps).map
          (fun x => x.linkOutput) ∧
      ((sharedLinkableDeps t.classifiedDeps.linkableDeps).map
          (fun x => x.depOutput)) <+:
        linkerImplicitDeps t (otherFilesOf t mds) t.inputDeps) ∧
    (d.depOutput = d.linkOutput →
      d.linkOutput ∈ linkerExplicitIns t (finalObjectFiles t mds)) := by
  rcases runEmit_ok_cases t mds o hm hrun with ⟨e, _, ho⟩ |
    ⟨hchk, ⟨hss2, _⟩ | ⟨_, ho⟩⟩
  · rw [ho] at hnodup
    simp at hnodup
  · exact absurd hss2 hss
  · subst ho
    refine ⟨?_, ?_, ?_⟩
    · simp only [EmitOutcome.mk.injEq]
      refine List.mem_append_right _ ?_
      unfold writeLinkerStuff
      exact List.mem_append_left _ (List.mem_cons_self _ _)
    · intro hne
      have hdshared : d ∈ sharedLinkableDeps t.classifiedDeps.linkableDeps := by
        unfold sharedLinkableDeps LinkableDep.isRust
        refine List.mem_filter.mpr ⟨hd, ?_⟩
        simp [hr1, hr2, hne, bne_iff_ne]
      have hsol : d.linkOutput ∈ linkerSolibs t :=
        List.mem_map_of_mem _ hdshared
      have hsolne : (linkerSolibs t).isEmpty = false := by
        cases h : linkerSolibs t with
        | nil => rw [h] at hsol; cases hsol
        | cons a l => rfl
      have hlibs : writeLibsList "solibs" (linkerSolibs t) =
          [Stmt.varFiles "solibs" (linkerSolibs t)] := by
        unfold writeLibsList
        rw [hsolne]
        rfl
      refine ⟨?_, hsol, ?_, rfl, ?_⟩
      · unfold linkerImplicitDeps
        simp only [List.append_assoc]
        exact List.mem_append_left _ (List.mem_map_of_mem _ hdshared)
      · refine List.mem_append_right _ ?_
        unfold writeLinkerStuff
        rw [hlibs]
        simp
      · unfold linkerImplicitDeps
        simp only [List.append_assoc]
        exact List.prefix_append _ _
    · intro heq
      have hddirect : d ∈ directLinkableDeps t.classifiedDeps.linkableDeps := by
        unfold directLinkableDeps LinkableDep.isRust
        refine List.mem_filter.mpr ⟨hd, ?_⟩
        simp [hr1, hr2, heq]
      unfold linkerExplicitIns
      refine List.mem_append_right _ ?_
      have := List.mem_map_of_mem (fun x : LinkableDep => x.linkOutput)
        hddirect
      simpa [heq] using this

/-- A shared-library dep whose dependency-output (TOC) differs from its
link-output. -/
def exC2dep : LinkableDep :=
  ⟨OutputType.sharedLibrary, "./libs.so", "obj/lib/libs.so.TOC"⟩

/-- Executable target linking against `exC2dep`. -/
def exC2 : Target := { baseTarget with
  label := "//app:x",
  sources := [⟨"main.cc", SourceType.cpp⟩],
  outputsForSource := fun _ => some ("cxx", ["obj/app/main.o"]),
  classifiedDeps := ⟨[exC2dep], [], [], [], []⟩ }

/-- The outcome of emitting `exC2`. -/
def exC2Outcome : EmitOutcome :=
  ((runEmit exC2).toOption).getD ⟨[], Option.none⟩

/-- Witness for C2 at a concrete executable with a shared-library dep. -/
theorem C2_linkable_dep_placement_witness :
    Stmt.buildEdge exC2.linkerOutputs (linkRule exC2)
        (linkerExplicitIns exC2 (finalObjectFiles exC2 []))
        (linkerImplicitDeps exC2 (otherFilesOf exC2 []) exC2.inputDeps)
        exC2.classifiedDeps.nonLinkableDeps ∈ exC2Outcome.stmts ∧
    (exC2dep.depOutput ≠ exC2dep.linkOutput →
      exC2dep.depOutput ∈
        linkerImplicitDeps exC2 (otherFilesOf exC2 []) exC2.inputDeps ∧
      exC2dep.linkOutput ∈ linkerSolibs exC2 ∧
      Stmt.varFiles "solibs" (linkerSolibs exC2) ∈ exC2Outcome.stmts ∧
      linkerSolibs exC2 =
        (sharedLinkableDeps exC2.classifiedDeps.linkableDeps).map
          (fun x => x.linkOutput) ∧
      ((sharedLinkableDeps exC2.classifiedDeps.linkableDeps).map
          (fun x => x.depOutput)) <+:
        linkerImplicitDeps exC2 (otherFilesOf exC2 []) exC2.inputDeps) ∧
    (exC2dep.depOutput = exC2dep.linkOutput →
      exC2dep.linkOutput ∈
        linkerExplicitIns exC2 (finalObjectFiles exC2 [])) :=
  C2_linkable_dep_placement exC2 [] exC2Outcome exC2dep (by rfl) (by rfl)
    (by rfl) (by decide) (by decide) (by decide) (by decide)

/-! ### Claim C5 -/

/-- Every PCH dep selected by the extension filter comes from the given
PCH output set. -/
theorem pchDepsForTool_subset (t : Target) (toolName : String)
    (pchDeps : List String) (x : String)
    (hx : x ∈ pchDepsForTool t toolName pchDeps) : x ∈ pchDeps := by
  unfold pchDepsForTool at hx
  cases ht : t.getToolAsC toolName with
  | none => rw [ht] at hx; cases hx
  | some tool =>
    simp only [ht] at hx
    by_cases hpt : (tool.precompiledHeaderType != PCHType.pchNone) = true
    · rw [if_pos hpt] at hx
      exact List.mem_of_mem_filter hx
    · rw [if_neg hpt] at hx
      cases hx

/-- The statements a tooled source contributes: its compile edge followed
by the pool override. -/
theorem processSource_stmts_tool (t : Target)
    (pchDeps i o : List String) (mds : List ModuleDep) (S : SourceFile)
    (tn : String) (outs : List String)
    (hout : t.outputsForSource S = some (tn, outs))
    (htn : tn ≠ kToolNone) :
    (processSource t pchDeps i o mds S).1 =
      Stmt.buildEdge outs tn [S.value]
        (sourceCompileDeps t pchDeps i mds tn outs) o :: writePool t := by
  unfold processSource
  rw [hout]
  simp [htn]

/-- Statements of one source are statements of the source writer. -/
theorem mem_writeSources_of_processSource (t : Target)
    (pchDeps i o : List String) (mds : List ModuleDep) (S : SourceFile)
    (st : Stmt) (hS : S ∈ t.sources)
    (hst : st ∈ (processSource t pchDeps i o mds S).1) :
    st ∈ (writeSources t pchDeps i o mds).1 := by
  unfold writeSources
  refine List.mem_append_left _ ?_
  rw [List.mem_flatten]
  exact ⟨_, List.mem_map_of_mem _ (List.mem_map_of_mem _ hS), hst⟩

/-- Statements of the source block are statements of the emit core. -/
theorem mem_emitCore_of_sourceBlock (t : Target) (mds : List ModuleDep)
    (st : Stmt) (hst : st ∈ (sourceBlock t mds).1) :
    st ∈ (emitCore t mds).1 := by
  unfold emitCore
  simp only [List.append_assoc]
  exact List.mem_append_right _ (List.mem_append_right _
    (List.mem_append_right _ (List.mem_append_right _ hst)))

/-- Claim C5: for every module-dep record `R` and every tooled source `S`,
the record's `.pcm` appears in the implicit-input list of `S`'s compile
edge iff the `.pcm` is not `S`'s own first output, so a module-map compile
never depends on its own `.pcm`.  (The `.pcm` is assumed not to collide
with the input-deps or PCH-deps paths, which hold different file kinds.) -/
theorem C5_pcm_self_exclusion (t : Target) (mds : List ModuleDep)
    (o : EmitOutcome) (S : SourceFile) (tn : String) (outs : List String)
    (R : ModuleDep)
    (hm : getModuleDepsInformation t = Except.ok mds)
    (hrun : runEmit t = Except.ok o)
    (hswift : t.swiftSourceUsed = false)
    (hS : S ∈ t.sources)
    (hout : t.outputsForSource S = some (tn, outs))
    (htn : tn ≠ kToolNone)
    (hR : R ∈ mds)
    (hni : R.pcm ∉ t.inputDeps)
    (hnp : R.pcm ∉ pchFilesOf t) :
    Stmt.buildEdge outs tn [S.value]
        (sourceCompileDeps t (pchFilesOf t) t.inputDeps mds tn outs)
        t.orderOnlyDeps ∈ o.stmts ∧
    (R.pcm ∈ sourceCompileDeps t (pchFilesOf t) t.inputDeps mds tn outs ↔
      R.pcm ≠ outs.headD "") := by
  constructor
  · obtain ⟨tail, hstmts⟩ := runEmit_stmts_ext t mds o hm hrun
    rw [hstmts]
    refine List.mem_append_left _ ?_
    refine mem_emitCore_of_sourceBlock t mds _ ?_
    have hsb : sourceBlock t mds =
        writeSources t (pchFilesOf t) t.inputDeps t.orderOnlyDeps mds := by
      unfold sourceBlock
      rw [hswift]
      rfl
    rw [hsb]
    refine mem_writeSources_of_processSource t _ _ _ mds S _ hS ?_
    rw [processSource_stmts_tool t _ _ _ mds S tn outs hout htn]
    exact List.mem_cons_self _ _
  · constructor
    · intro hmem
      unfold sourceCompileDeps at hmem
      rcases List.mem_append.mp hmem with h | h
      · rcases List.mem_append.mp h with h2 | h2
        · exact absurd h2 hni
        · exact absurd (pchDepsForTool_subset t tn (pchFilesOf t) _ h2) hnp
      · rcases List.mem_map.mp h with ⟨md, hmd, hpcm⟩
        have hcond := (List.mem_filter.mp hmd).2
        rw [bne_iff_ne] at hcond
        intro heq
        exact hcond (by rw [hpcm, heq])
    · intro hne
      unfold sourceCompileDeps
      refine List.mem_append_right _ ?_
      refine List.mem_map.mpr ⟨R, ?_, rfl⟩
      refine List.mem_filter.mpr ⟨hR, ?_⟩
      rw [bne_iff_ne]
      exact fun h => hne h.symm

/-- Modularized target: `a.modulemap` compiles to its own `.pcm`, `a.cc`
compiles to an object file. -/
def exC5 : Target := { baseTarget with
  sources := [⟨"a.modulemap", SourceType.modulemap⟩,
    ⟨"a.cc", SourceType.cpp⟩],
  outputsForSource := fun s =>
    if s.value = "a.modulemap" then some ("cxx_module", ["obj/foo/a.pcm"])
    else if s.value = "a.cc" then some ("cxx", ["obj/foo/a.o"])
    else Option.none }

/-- The self module-dep record of `exC5`. -/
def exC5R : ModuleDep :=
  ⟨⟨"a.modulemap", SourceType.modulemap⟩, "//foo:bar", "obj/foo/a.pcm",
    true⟩

/-- The outcome of emitting `exC5`. -/
def exC5Outcome : EmitOutcome :=
  ((runEmit exC5).toOption).getD ⟨[], Option.none⟩

/-- Witness for C5 at the concrete modularized target: compiling `a.cc`
pulls in the `.pcm` as an implicit input (it is not its own output). -/
theorem C5_pcm_self_exclusion_witness :
    Stmt.buildEdge ["obj/foo/a.o"] "cxx" ["a.cc"]
        (sourceCompileDeps exC5 (pchFilesOf exC5) exC5.inputDeps [exC5R]
          "cxx" ["obj/foo/a.o"])
        exC5.orderOnlyDeps ∈ exC5Outcome.stmts ∧
    (exC5R.pcm ∈ sourceCompileDeps exC5 (pchFilesOf exC5) exC5.inputDeps
        [exC5R] "cxx" ["obj/foo/a.o"] ↔
      exC5R.pcm ≠ ["obj/foo/a.o"].headD "") :=
  C5_pcm_self_exclusion exC5 [exC5R] exC5Outcome
    ⟨"a.cc", SourceType.cpp⟩ "cxx" ["obj/foo/a.o"] exC5R (by rfl) (by rfl)
    (by rfl) (by decide) (by rfl) (by decide) (by decide) (by decide)
    (by decide)

/-! ### Claim C10 -/

/-- A tool-less source with outputs pushes exactly its first output. -/
theorem processSource_objs_noneTool (t : Target)
    (pchDeps i o : List String) (mds : List ModuleDep) (S : SourceFile)
    (outs : List String)
    (hout : t.outputsForSource S = some (kToolNone, outs))
    (hmm : S.isModuleMapType = false) :
    (processSource t pchDeps i o mds S).1 = [] ∧
    (processSource t pchDeps i o mds S).2.1 = [outs.headD ""] := by
  unfold processSource
  rw [hout]
  simp [hmm]

/-- Object files of one source are object files of the source writer. -/
theorem mem_writeSources_objs_of_processSource (t : Target)
    (pchDeps i o : List String) (mds : List ModuleDep) (S : SourceFile)
    (x : String) (hS : S ∈ t.sources)
    (hx : x ∈ (processSource t pchDeps i o mds S).2.1) :
    x ∈ (writeSources t pchDeps i o mds).2.1 := by
  unfold writeSources
  rw [List.mem_flatten]
  exact ⟨_, List.mem_map_of_mem _ (List.mem_map_of_mem _ hS), hx⟩

/-- Claim C10: a C-family source for which the target reports output files
but the `none` tool (e.g. an object file listed in `sources`) gets no
build edge, yet its first reported output is pushed onto the object list
and thus flows into the duplicate-object check and the link edge. -/
theorem C10_none_tool_object_flow (t : Target) (mds : List ModuleDep)
    (o : EmitOutcome) (S : SourceFile) (outs : List String)
    (hm : getModuleDepsInformation t = Except.ok mds)
    (hrun : runEmit t = Except.ok o)
    (hswift : t.swiftSourceUsed = false)
    (hS : S ∈ t.sources)
    (hout : t.outputsForSource S = some (kToolNone, outs))
    (houts : outs ≠ [])
    (hmm : S.isModuleMapType = false) :
    (processSource t (pchFilesOf t) t.inputDeps t.orderOnlyDeps mds S).1 =
        [] ∧
    outs.headD "" ∈ finalObjectFiles t mds ∧
    (o.schedulerErr = Option.none → t.outputType ≠ OutputType.sourceSet →
      outs.headD "" ∈ linkerExplicitIns t (finalObjectFiles t mds) ∧
      Stmt.buildEdge t.linkerOutputs (linkRule t)
        (linkerExplicitIns t (finalObjectFiles t mds))
        (linkerImplicitDeps t (otherFilesOf t mds) t.inputDeps)
        t.classifiedDeps.nonLinkableDeps ∈ o.stmts) := by
  have hps := processSource_objs_noneTool t (pchFilesOf t) t.inputDeps
    t.orderOnlyDeps mds S outs hout hmm
  have hsb : sourceBlock t mds =
      writeSources t (pchFilesOf t) t.inputDeps t.orderOnlyDeps mds := by
    unfold sourceBlock
    rw [hswift]
    rfl
  have hobj : outs.headD "" ∈ finalObjectFiles t mds := by
    have h1 : outs.headD "" ∈
        (writeSources t (pchFilesOf t) t.inputDeps t.orderOnlyDeps
          mds).2.1 := by
      refine mem_writeSources_objs_of_processSource t _ _ _ mds S _ hS ?_
      rw [hps.2]
      exact List.mem_singleton.mpr rfl
    have h2 : outs.headD "" ∈ sourceObjectFiles t mds := by
      unfold sourceObjectFiles
      rw [hsb]
      exact h1
    exact List.mem_append_left _ h2
  refine ⟨hps.1, hobj, ?_⟩
  intro hnodup hss
  rcases runEmit_ok_cases t mds o hm hrun with ⟨e, _, ho⟩ |
    ⟨hchk, ⟨hss2, _⟩ | ⟨_, ho⟩⟩
  · rw [ho] at hnodup
    simp at hnodup
  · exact absurd hss2 hss
  · subst ho
    refine ⟨?_, ?_⟩
    · unfold linkerExplicitIns
      exact List.mem_append_left _ (List.mem_append_left _ hobj)
    · refine List.mem_append_right _ ?_
      unfold writeLinkerStuff
      exact List.mem_append_left _ (List.mem_cons_self _ _)

/-- Target listing a prebuilt object file among its sources. -/
def exC10 : Target := { baseTarget with
  sources := [⟨"bin/x.o", SourceType.o⟩, ⟨"a.cc", SourceType.cpp⟩],
  outputsForSource := fun s =>
    if s.value = "bin/x.o" then some (kToolNone, ["bin/x.o"])
    else if s.value = "a.cc" then some ("cxx", ["obj/foo/a.o"])
    else Option.none }

/-- The outcome of emitting `exC10`. -/
def exC10Outcome : EmitOutcome :=
  ((runEmit exC10).toOption).getD ⟨[], Option.none⟩

/-- Witness for C10 at the concrete object-file-source target. -/
theorem C10_none_tool_object_flow_witness :
    (processSource exC10 (pchFilesOf exC10) exC10.inputDeps
        exC10.orderOnlyDeps [] ⟨"bin/x.o", SourceType.o⟩).1 = [] ∧
    ["bin/x.o"].headD "" ∈ finalObjectFiles exC10 [] ∧
    (exC10Outcome.schedulerErr = Option.none →
      exC10.outputType ≠ OutputType.sourceSet →
      ["bin/x.o"].headD "" ∈
        linkerExplicitIns exC10 (finalObjectFiles exC10 []) ∧
      Stmt.buildEdge exC10.linkerOutputs (linkRule exC10)
        (linkerExplicitIns exC10 (finalObjectFiles exC10 []))
        (linkerImplicitDeps exC10 (otherFilesOf exC10 []) exC10.inputDeps)
        exC10.classifiedDeps.nonLinkableDeps ∈ exC10Outcome.stmts) :=
  C10_none_tool_object_flow exC10 [] exC10Outcome
    ⟨"bin/x.o", SourceType.o⟩ ["bin/x.o"] (by rfl) (by rfl) (by rfl)
    (by decide) (by rfl) (by decide) (by decide)

/-! ### Claim C7 -/

/-- Edge-free statement lists contribute nothing to any rule filter. -/
theorem edgesWithRule_eq_nil_of_no_edges (l : List Stmt) (r : String)
    (h : l.all (fun st => !st.isBuildEdge) = true) :
    edgesWithRule l r = [] := by
  unfold edgesWithRule
  rw [List.filter_eq_nil]
  intro a ha
  have := (List.all_eq_true.mp h) a ha
  simp only [Bool.not_eq_true'] at this
  simp [this]

theorem linkerTailVars_no_edges (t : Target) (d : Option SourceFile) :
    (linkerTailVars t d).all (fun st => !st.isBuildEdge) = true := by
  unfold linkerTailVars
  split
  · rfl
  · split
    · rfl
    · rfl

theorem writeLibsList_no_edges (n : String) (l : List String) :
    (writeLibsList n l).all (fun st => !st.isBuildEdge) = true := by
  unfold writeLibsList
  split
  · rfl
  · rfl

theorem linkPoolStmts_no_edges (t : Target) :
    (linkPoolStmts t).all (fun st => !st.isBuildEdge) = true := by
  unfold linkPoolStmts
  cases t.linkPoolVar
  · rfl
  · rfl

theorem writePool_no_edges (t : Target) :
    (writePool t).all (fun st => !st.isBuildEdge) = true := by
  unfold writePool
  cases t.poolVar
  · rfl
  · rfl

theorem writeModuleDepsSubstitution_no_edges (t : Target) (n : String)
    (mds : List ModuleDep) (b : Bool) :
    (writeModuleDepsSubstitution t n mds b).all
      (fun st => !st.isBuildEdge) = true := by
  unfold writeModuleDepsSubstitution
  split
  · rfl
  · rfl

/-- No rule other than the link rule has edges in the linker block. -/
theorem edgesWithRule_writeLinkerStuff_ne (t : Target)
    (objF : List String) (othF : List SourceFile) (i : List String)
    (r : String) (hr : r ≠ linkRule t) :
    edgesWithRule (writeLinkerStuff t objF othF i) r = [] := by
  unfold writeLinkerStuff
  rw [edgesWithRule_append, edgesWithRule_append, edgesWithRule_append,
    edgesWithRule_append, edgesWithRule_append]
  rw [edgesWithRule_eq_nil_of_no_edges _ r (linkerTailVars_no_edges t _),
    edgesWithRule_eq_nil_of_no_edges _ r (writeLibsList_no_edges _ _),
    edgesWithRule_eq_nil_of_no_edges _ r (writeLibsList_no_edges _ _),
    edgesWithRule_eq_nil_of_no_edges _ r (linkPoolStmts_no_edges t)]
  simp [edgesWithRule, Stmt.isBuildEdge, Stmt.ruleOf, List.filter_cons,
    Ne.symm hr]

/-- The source-set stamp edge never carries a foreign rule. -/
theorem edgesWithRule_writeSourceSetStamp_ne (t : Target)
    (objF : List String) (r : String)
    (hr : r ≠ t.rulePfx ++ kGeneralToolStamp) :
    edgesWithRule (writeSourceSetStamp t objF) r = [] := by
  unfold writeSourceSetStamp
  simp [edgesWithRule, Stmt.isBuildEdge, Stmt.ruleOf, List.filter_cons,
    Ne.symm hr]

/-- The PCH block has no edges outside the four C-family tool rules. -/
theorem edgesWithRule_writePCHCommands_ne (t : Target)
    (i o : List String) (r : String)
    (h1 : r ≠ kCToolCc) (h2 : r ≠ kCToolCxx) (h3 : r ≠ kCToolObjC)
    (h4 : r ≠ kCToolObjCxx) :
    edgesWithRule (writePCHCommands t i o).1 r = [] := by
  unfold writePCHCommands
  by_cases hp : t.hasPrecompiledHeaders = true
  · simp only [hp, Bool.not_true, Bool.false_eq_true, if_false]
    rw [edgesWithRule_append, edgesWithRule_append, edgesWithRule_append,
      edgesWithRule_pchBlock_ne t ninjaNameCFlagsC kCToolCc _ _ i o r h1,
      edgesWithRule_pchBlock_ne t ninjaNameCFlagsCc kCToolCxx _ _ i o r h2,
      edgesWithRule_pchBlock_ne t ninjaNameCFlagsObjC kCToolObjC _ _ i o r
        h3,
      edgesWithRule_pchBlock_ne t ninjaNameCFlagsObjCc kCToolObjCxx _ _ i
        o r h4]
    rfl
  · have hp2 : t.hasPrecompiledHeaders = false := by simpa using hp
    simp [hp2, edgesWithRule]

/-- The compiler-variable block has no edges with a given rule when the
external variable statements have none (the module-deps lines are variable
lines). -/
theorem edgesWithRule_writeCompilerVars (t : Target)
    (mds : List ModuleDep) (r : String)
    (hcc : edgesWithRule t.ccCompilerVarStmts r = [])
    (hsh : edgesWithRule t.sharedVarStmts r = []) :
    edgesWithRule (writeCompilerVars t mds) r = [] := by
  unfold writeCompilerVars
  rw [edgesWithRule_append, edgesWithRule_append, hcc, hsh]
  split
  · rw [edgesWithRule_append,
      edgesWithRule_eq_nil_of_no_edges _ r
        (writeModuleDepsSubstitution_no_edges t _ mds true),
      edgesWithRule_eq_nil_of_no_edges _ r
        (writeModuleDepsSubstitution_no_edges t _ mds false)]
    rfl
  · rfl

/-- Every statement of a per-source block is the compile edge (whose rule
is the dispatched tool) or a pool variable line. -/
theorem processSource_stmt_shape (t : Target)
    (pchDeps i o : List String) (mds : List ModuleDep) (S : SourceFile)
    (st : Stmt) (hst : st ∈ (processSource t pchDeps i o mds S).1) :
    (∃ tn outs, t.outputsForSource S = some (tn, outs) ∧
      st = Stmt.buildEdge outs tn [S.value]
        (sourceCompileDeps t pchDeps i mds tn outs) o) ∨
    st ∈ writePool t := by
  unfold processSource at hst
  cases hout : t.outputsForSource S with
  | none =>
    rw [hout] at hst
    cases hst
  | some p =>
    obtain ⟨tn, outs⟩ := p
    simp only [hout] at hst
    by_cases htn : (tn != kToolNone) = true
    · rw [if_pos htn] at hst
      rcases List.mem_append.mp hst with h | h
      · rcases List.mem_singleton.mp h with rfl
        exact Or.inl ⟨tn, outs, rfl, rfl⟩
      · exact Or.inr h
    · rw [if_neg htn] at hst
      cases hst

/-- Rule filter over the C-family source writer is empty when no source
dispatches to the rule. -/
theorem edgesWithRule_writeSources_eq_nil (t : Target)
    (pchDeps i o : List String) (mds : List ModuleDep) (r : String)
    (hsrc : ∀ s ∈ t.sources, ∀ tn outs,
      t.outputsForSource s = some (tn, outs) → tn ≠ r) :
    edgesWithRule (writeSources t pchDeps i o mds).1 r = [] := by
  unfold writeSources edgesWithRule
  rw [List.filter_append, List.filter_eq_nil.mpr, List.filter_eq_nil.mpr]
  · rfl
  · intro a ha
    simp [Stmt.isBuildEdge] at ha ⊢
    rw [ha]
    simp [Stmt.isBuildEdge]
  · intro a ha
    rw [List.mem_flatten] at ha
    obtain ⟨l, hl, hal⟩ := ha
    rw [List.mem_map] at hl
    obtain ⟨trip, htrip, rfl⟩ := hl
    rw [List.mem_map] at htrip
    obtain ⟨s, hs, rfl⟩ := htrip
    rcases processSource_stmt_shape t pchDeps i o mds s a hal with
      ⟨tn, outs, hout, rfl⟩ | hpool
    · have := hsrc s hs tn outs hout
      simp [Stmt.isBuildEdge, Stmt.ruleOf, this]
    · have := (List.all_eq_true.mp (writePool_no_edges t)) a hpool
      simp only [Bool.not_eq_true'] at this
      simp [this]

/-- Rule filter over the Swift writer: exactly the single Swift compile
edge. -/
theorem edgesWithRule_writeSwiftSources (t : Target) (i o : List String)
    (hsw : t.swiftSourceUsed = true)
    (hst : t.swiftToolName ≠ kGeneralToolStamp) :
    edgesWithRule (writeSwiftSources t i o).1 t.swiftToolName =
      [Stmt.buildEdge [t.swiftModuleOutputFile] t.swiftToolName
        (t.sources.map (fun s => s.value)) i
        (dedupFirst (o ++ t.swiftImportedModuleDeps))] := by
  unfold writeSwiftSources
  rw [hsw]
  simp only [if_true]
  rw [edgesWithRule_append, edgesWithRule_append]
  have h1 : edgesWithRule
      [Stmt.buildEdge [t.swiftModuleOutputFile] t.swiftToolName
        (t.sources.map (fun s => s.value)) i
        (dedupFirst (o ++ t.swiftImportedModuleDeps))] t.swiftToolName =
      [Stmt.buildEdge [t.swiftModuleOutputFile] t.swiftToolName
        (t.sources.map (fun s => s.value)) i
        (dedupFirst (o ++ t.swiftImportedModuleDeps))] := by
    simp [edgesWithRule, Stmt.isBuildEdge, Stmt.ruleOf, List.filter_cons]
  rw [h1]
  have h2 : ∀ c : Bool, edgesWithRule
      (if c then
        [Stmt.blank,
         Stmt.buildEdge
           ((t.swiftToolResolvedOutputs.filter
              (fun oFile => oFile != t.swiftModuleOutputFile)) ++
             (if t.swiftHasPartialOutputs then
               ((t.sources.filter (fun s => s.isSwiftType)).map
                 t.swiftPartialOutputsFor).flatten
             else []))
           kGeneralToolStamp [t.swiftModuleOutputFile] i
           (dedupFirst (o ++ t.swiftImportedModuleDeps))]
      else []) t.swiftToolName = [] := by
    intro c
    cases c
    · rfl
    · simp [edgesWithRule, Stmt.isBuildEdge, Stmt.ruleOf, List.filter_cons,
        Ne.symm hst]
  rw [h2]
  rfl

/-- Mixed target: one Swift source, one C++ source. -/
def exC7 : Target := { baseTarget with
  sources := [⟨"a.swift", SourceType.swift⟩, ⟨"b.cc", SourceType.cpp⟩] }

/-- The outcome of emitting `exC7`. -/
def exC7Outcome : EmitOutcome :=
  ((runEmit exC7).toOption).getD ⟨[], Option.none⟩

/-- Claim C7 counterexample: on a target with sources `a.swift, b.cc`, the
single Swift compile edge's explicit inputs are ALL the target's sources —
including the non-Swift `b.cc` — not just its Swift sources. -/
theorem C7_counterexample :
    (writeSwiftSources exC7 exC7.inputDeps exC7.orderOnlyDeps).1.head? =
      some (Stmt.buildEdge [exC7.swiftModuleOutputFile] exC7.swiftToolName
        ["a.swift", "b.cc"] [] []) ∧
    (exC7.sources.filter (fun s => s.isSwiftType)).map (fun s => s.value) =
      ["a.swift"] ∧
    Stmt.buildEdge [exC7.swiftModuleOutputFile] exC7.swiftToolName
      ["a.swift", "b.cc"] [] [] ∈ exC7Outcome.stmts :=
  ⟨by rfl, by rfl, by decide⟩

/-- Claim C7 (amended): when the target uses any Swift source, the run
emits exactly one compile edge with the Swift tool's rule — producing the
`.swiftmodule`, with ALL the target's sources as inputs; when it uses no
Swift source, no edge with the Swift rule exists and the sources go
through the C-family source writer.  The freshness hypotheses say the
Swift tool's rule name collides with no other rule in the output. -/
theorem C7_swift_single_edge (t : Target) (mds : List ModuleDep)
    (o : EmitOutcome)
    (hm : getModuleDepsInformation t = Except.ok mds)
    (hrun : runEmit t = Except.ok o)
    (hf1 : t.swiftToolName ≠ kGeneralToolStamp)
    (hf2 : t.swiftToolName ≠ kCToolCc)
    (hf3 : t.swiftToolName ≠ kCToolCxx)
    (hf4 : t.swiftToolName ≠ kCToolObjC)
    (hf5 : t.swiftToolName ≠ kCToolObjCxx)
    (hcc : edgesWithRule t.ccCompilerVarStmts t.swiftToolName = [])
    (hsh : edgesWithRule t.sharedVarStmts t.swiftToolName = [])
    (his : edgesWithRule t.inputsStampStmts t.swiftToolName = [])
    (hids : edgesWithRule t.inputDepsStampStmts t.swiftToolName = [])
    (hlink : t.swiftToolName ≠ linkRule t)
    (hstamp : t.swiftToolName ≠ t.rulePfx ++ kGeneralToolStamp)
    (hsrc : ∀ s ∈ t.sources, ∀ tn outs,
      t.outputsForSource s = some (tn, outs) → tn ≠ t.swiftToolName) :
    edgesWithRule o.stmts t.swiftToolName =
      (if t.swiftSourceUsed then
        [Stmt.buildEdge [t.swiftModuleOutputFile] t.swiftToolName
          (t.sources.map (fun s => s.value)) t.inputDeps
          (dedupFirst (t.orderOnlyDeps ++ t.swiftImportedModuleDeps))]
      else []) ∧
    (t.swiftSourceUsed = false →
      ∃ tail, o.stmts = writeCompilerVars t mds ++ t.inputsStampStmts ++
        t.inputDepsStampStmts ++ (pchTriple t).1 ++
        (writeSources t (pchFilesOf t) t.inputDeps t.orderOnlyDeps mds).1
        ++ tail) := by
  have hcoreedges : edgesWithRule (emitCore t mds).1 t.swiftToolName =
      (if t.swiftSourceUsed then
        [Stmt.buildEdge [t.swiftModuleOutputFile] t.swiftToolName
          (t.sources.map (fun s => s.value)) t.inputDeps
          (dedupFirst (t.orderOnlyDeps ++ t.swiftImportedModuleDeps))]
      else []) := by
    unfold emitCore pchTriple
    rw [edgesWithRule_append, edgesWithRule_append, edgesWithRule_append,
      edgesWithRule_append]
    rw [edgesWithRule_writeCompilerVars t mds _ hcc hsh, his, hids,
      edgesWithRule_writePCHCommands_ne t _ _ _ hf2 hf3 hf4 hf5]
    cases hsw : t.swiftSourceUsed with
    | false =>
      have hsb : sourceBlock t mds =
          writeSources t (pchFilesOf t) t.inputDeps t.orderOnlyDeps mds :=
        by
        unfold sourceBlock
        rw [hsw]
        rfl
      rw [hsb,
        edgesWithRule_writeSources_eq_nil t _ _ _ mds _ hsrc]
      simp
    | true =>
      have hsb : (sourceBlock t mds).1 =
          (writeSwiftSources t t.inputDeps t.orderOnlyDeps).1 := by
        unfold sourceBlock
        rw [hsw]
        rfl
      rw [hsb, edgesWithRule_writeSwiftSources t _ _ hsw hf1]
      simp
  constructor
  · rcases runEmit_ok_cases t mds o hm hrun with ⟨e, _, ho⟩ |
      ⟨_, ⟨_, ho⟩ | ⟨_, ho⟩⟩
    · rw [ho]
      exact hcoreedges
    · rw [ho]
      simp only [EmitOutcome.mk.injEq]
      rw [edgesWithRule_append, hcoreedges,
        edgesWithRule_writeSourceSetStamp_ne t _ _ hstamp,
        List.append_nil]
    · rw [ho]
      simp only [EmitOutcome.mk.injEq]
      rw [edgesWithRule_append, hcoreedges,
        edgesWithRule_writeLinkerStuff_ne t _ _ _ _ hlink,
        List.append_nil]
  · intro hsw
    obtain ⟨tail, htail⟩ := runEmit_stmts_ext t mds o hm hrun
    refine ⟨tail, ?_⟩
    rw [htail]
    have hsb : sourceBlock t mds =
        writeSources t (pchFilesOf t) t.inputDeps t.orderOnlyDeps mds := by
      unfold sourceBlock
      rw [hsw]
      rfl
    unfold emitCore
    rw [hsb]

/-- Pure-Swift target for the amended C7. -/
def exC7w : Target := { baseTarget with
  sources := [⟨"a.swift", SourceType.swift⟩,
    ⟨"b.swift", SourceType.swift⟩] }

/-- The outcome of emitting `exC7w`. -/
def exC7wOutcome : EmitOutcome :=
  ((runEmit exC7w).toOption).getD ⟨[], Option.none⟩

/-- Witness for the amended C7 at a concrete two-source Swift target. -/
theorem C7_swift_single_edge_witness :
    edgesWithRule exC7wOutcome.stmts exC7w.swiftToolName =
      (if exC7w.swiftSourceUsed then
        [Stmt.buildEdge [exC7w.swiftModuleOutputFile] exC7w.swiftToolName
          (exC7w.sources.map (fun s => s.value)) exC7w.inputDeps
          (dedupFirst (exC7w.orderOnlyDeps ++
            exC7w.swiftImportedModuleDeps))]
      else []) ∧
    (exC7w.swiftSourceUsed = false →
      ∃ tail, exC7wOutcome.stmts = writeCompilerVars exC7w [] ++
        exC7w.inputsStampStmts ++ exC7w.inputDepsStampStmts ++
        (pchTriple exC7w).1 ++
        (writeSources exC7w (pchFilesOf exC7w) exC7w.inputDeps
          exC7w.orderOnlyDeps []).1 ++ tail) :=
  C7_swift_single_edge exC7w [] exC7wOutcome (by rfl) (by rfl) (by decide)
    (by decide) (by decide) (by decide) (by decide) (by rfl) (by rfl)
    (by rfl) (by rfl) (by decide) (by decide)
    (by intro s hs tn outs h; cases h)

end Gn
